import Mathlib

/-!
Shallow embedding of `src/crates/cli/src/build/gitee.rs` (the Gitee metadata
collection pipeline of compass-landscape2).

Modelling conventions:
* Timestamps (`DateTime<Utc>`) are integers counting seconds; `chrono::Duration::days d`
  is `86400 * d` seconds, and `Duration::num_days` is truncating division by 86400
  (`Int.tdiv`), matching chrono's truncation toward zero.
* `serde_json::Value` is the inductive `JVal`; `Value::get` is `JVal.get` (returns
  `Option`), the `Index` operator `value["k"]` is `JVal.index` (returns `JVal.null`
  on missing/non-object), `Value::as_str` / `as_array` / `as_i64` are `JVal.asStr` /
  `JVal.asArr` / `JVal.asInt`, and `Value::to_string` (compact JSON rendering) is
  `JVal.render`.
* HTTP transport is the oracle `Http`: a map from request URL to a response carrying
  the success flag, the `total_count` header, and the body already parsed to
  `Option JVal` (`none` = the body text is not valid JSON, which makes
  `serde_json::from_str` fail).
* `chrono::DateTime::parse_from_rfc3339` is an external library, out of scope per the
  spec; functions that parse commit dates are parametrised by an arbitrary parser
  `parseDate : String → Option Int`.
* Rust `usize` casts of a (possibly negative) `i64` wrap modulo `2^64` (`usizeOfInt`).
-/

/-- Model of `serde_json::Value`. Object fields are an association list. -/
inductive JVal where
  | null
  | bool (b : Bool)
  | num (n : Int)
  | str (s : String)
  | arr (xs : List JVal)
  | obj (fields : List (String × JVal))

/-- Model of `Value::get(key)`: `Some` field value on objects, `None` otherwise. -/
def JVal.get (j : JVal) (k : String) : Option JVal :=
  match j with
  | .obj fields => fields.lookup k
  | _ => none

/-- The `Index` operator `value["key"]`: the field value, or `Null` when the key is
missing or the value is not an object. -/
def JVal.index (j : JVal) (k : String) : JVal :=
  (j.get k).getD .null

/-- Model of `Value::as_str`. -/
def JVal.asStr : JVal → Option String
  | .str s => some s
  | _ => none

/-- Model of `Value::as_array`. -/
def JVal.asArr : JVal → Option (List JVal)
  | .arr xs => some xs
  | _ => none

/-- Model of `Value::as_i64`. -/
def JVal.asInt : JVal → Option Int
  | .num n => some n
  | _ => none

/-- JSON string escaping of one character, as `serde_json` renders string contents. -/
def escapeJsonChar (c : Char) : String :=
  if c = '"' then "\\\""
  else if c = '\\' then "\\\\"
  else if c = '\n' then "\\n"
  else if c = '\r' then "\\r"
  else if c = '\t' then "\\t"
  else if c.toNat < 32 then
    "\\u" ++ (Nat.toDigits 16 c.toNat).asString.leftpad 4 '0'
  else String.singleton c

/-- JSON rendering of a string literal: surrounding quotes plus escaping. -/
def renderJsonString (s : String) : String :=
  "\"" ++ String.join (s.toList.map escapeJsonChar) ++ "\""

mutual

/-- Model of `Value::to_string()`: compact JSON rendering of a value. Strings are rendered
with surrounding quotes and escaping — this is what `body_json.get("html_url")
.map(Value::to_string)` produces in `GTApi::get_repository`. -/
def JVal.render : JVal → String
  | .null => "null"
  | .bool true => "true"
  | .bool false => "false"
  | .num n => toString n
  | .str s => renderJsonString s
  | .arr xs => "[" ++ String.intercalate "," (JVal.renderList xs) ++ "]"
  | .obj fields => "\x7b" ++ String.intercalate "," (JVal.renderFields fields) ++ "\x7d"

/-- Renderings of the elements of a JSON array. -/
def JVal.renderList : List JVal → List String
  | [] => []
  | x :: xs => JVal.render x :: JVal.renderList xs

/-- Renderings of the `"key":value` members of a JSON object. -/
def JVal.renderFields : List (String × JVal) → List String
  | [] => []
  | (k, v) :: fs => (renderJsonString k ++ ":" ++ JVal.render v) :: JVal.renderFields fs

end

/-- Split a character list at every occurrence of `sep` (like Rust's `str::split`
and Lean's `String.splitOn` for a one-character separator). -/
def splitOnChar (sep : Char) : List Char → List Char → List (List Char)
  | [], acc => [acc.reverse]
  | c :: rest, acc =>
      if c = sep then acc.reverse :: splitOnChar sep rest []
      else splitOnChar sep rest (c :: acc)

/-- Model of `String.splitOn` for a one-character separator, computed structurally over the
character list. -/
def strSplitOnChar (s : String) (sep : Char) : List String :=
  (splitOnChar sep s.data []).map String.mk

/-- Model of `str::starts_with`, computed structurally over the character lists. -/
def strStartsWith (s p : String) : Bool :=
  p.data.isPrefixOf s.data

/-- Drop the first `n` characters of a string. -/
def strDrop (s : String) (n : Nat) : String :=
  String.mk (s.data.drop n)

/-- Regex `GITEE_REPO_URL = ^https://gitee.com/(?P<owner>[^/]+)/(?P<repo>[^/]+)/?$`:
the named captures, when the URL matches. `[^/]+` is one or more characters other
than `/`, which after splitting the remainder on `/` means exactly two (or, with a
trailing slash, three with an empty third) nonempty segments. -/
def giteeRepoUrlCaptures (s : String) : Option (String × String) :=
  if strStartsWith s "https://gitee.com/" then
    match strSplitOnChar (strDrop s 18) '/' with
    | [owner, repo] =>
        if owner ≠ "" ∧ repo ≠ "" then some (owner, repo) else none
    | [owner, repo, ""] =>
        if owner ≠ "" ∧ repo ≠ "" then some (owner, repo) else none
    | _ => none
  else none

/-- Model of `GITEE_REPO_URL.is_match`. -/
def giteeRepoUrlIsMatch (s : String) : Bool :=
  (giteeRepoUrlCaptures s).isSome

/-- Model of `get_owner_and_repo` (gitee.rs line 471): capture owner and repo from the URL,
or the error `invalid repository url`. -/
def get_owner_and_repo (repo_url : String) : Except String (String × String) :=
  match giteeRepoUrlCaptures repo_url with
  | some c => .ok c
  | none => .error "invalid repository url"

/-- Model of `landscape2_core::data::Commit`: a commit URL and an optional timestamp. -/
structure Commit where
  url : String
  ts : Option Int
deriving DecidableEq

/-- Model of `Commit::default()`: empty URL, no timestamp. -/
def Commit.default : Commit := { url := "", ts := none }

/-- Model of `landscape2_core::data::Release`. -/
structure Release where
  url : String
  ts : Option Int
deriving DecidableEq

/-- Model of `landscape2_core::data::Contributors`. -/
structure Contributors where
  count : Nat
  url : String
deriving DecidableEq

/-- Model of `PartRepository` (gitee.rs line 210): the fields consumed from
`GET /repos/{owner}/{repo}`. -/
structure PartRepository where
  default_branch : String
  description : String
  license : Option (List String)
  stargazers_count : Int
  topics : List String
  html_url : String
deriving DecidableEq

/-- Model of `RepositoryGiteeData` (alias of `landscape2_core::data::RepositoryGithubData`):
one repository's collected metadata. `languages` is a `BTreeMap<String, i64>`,
modelled as an association list. -/
structure RepositoryGiteeData where
  generated_at : Int
  contributors : Contributors
  description : String
  first_commit : Option Commit
  languages : Option (List (String × Int))
  latest_commit : Commit
  latest_release : Option Release
  license : Option String
  participation_stats : List Int
  stars : Int
  topics : List String
  url : String
deriving DecidableEq

/-- Model of `GiteeData` (alias of `GithubData`): `BTreeMap<String, RepositoryGiteeData>`,
modelled as an association list ordered by key. -/
abbrev GiteeData := List (String × RepositoryGiteeData)

/-- Model of `GITEE_API_URL` (gitee.rs line 169). -/
def GITEE_API_URL : String := "https://gitee.com/api/v5/"

/-- Model of `GITEE_CACHE_TTL` (gitee.rs line 31): cache validity in days. -/
def GITEE_CACHE_TTL : Int := 7

/-- An HTTP response as consumed by the code: success flag of the status, the
`total_count` header (the only header read), and the body already parsed into JSON
(`none` when the body is not valid JSON, in which case `serde_json::from_str` and
hence the surrounding function fail). -/
structure HttpResponse where
  statusSuccess : Bool
  totalCountHeader : Option String
  body : Option JVal

/-- The HTTP transport oracle: responses for GET and HEAD requests, keyed by the
full request URL. -/
structure Http where
  get : String → HttpResponse
  head : String → HttpResponse

/-- Digits-only parse of a natural number (empty and non-digit strings fail). -/
def parseNatDigits (cs : List Char) : Option Nat :=
  match cs with
  | [] => none
  | _ =>
      if cs.all (fun c => c.isDigit) then
        some (cs.foldl (fun n c => n * 10 + (c.toNat - 48)) 0)
      else none

/-- Model of `str::parse::<usize>`: digits with an optional leading `+` sign. -/
def parseUsize (s : String) : Option Nat :=
  match s.data with
  | '+' :: rest => parseNatDigits rest
  | cs => parseNatDigits cs

/-- Model of `get_last_page` (gitee.rs line 459): read the `total_count` header; absent
header yields `Ok(None)`, an unparseable value is an error, otherwise the parsed
count (with page size 1, the index of the last page). -/
def get_last_page (total_count : Option String) : Except String (Option Nat) :=
  match total_count with
  | some v =>
      match parseUsize v with
      | some count => .ok (some count)
      | none => .error "Failed to parse total count"
  | none => .ok none

/-- The URL `{GITEE_API_URL}/repos/{owner}/{repo}/commits?sha={ref_}&per_page=1&page={page}`
used by `get_first_commit` and `get_latest_commit` (note the doubled slash after the
API base, exactly as the `format!` in the source produces). -/
def commitsUrl (owner repo ref_ : String) (page : Nat) : String :=
  GITEE_API_URL ++ "/repos/" ++ owner ++ "/" ++ repo ++ "/commits?sha=" ++ ref_ ++
    "&per_page=1&page=" ++ toString page

/-- The URL `{GITEE_API_URL}/repos/{owner}/{repo}` used by `get_repository`. -/
def repoApiUrl (owner repo : String) : String :=
  GITEE_API_URL ++ "/repos/" ++ owner ++ "/" ++ repo

/-- Model of `new_commit_from` (gitee.rs line 477): commit URL from `html_url` (empty when
absent), timestamp from `commit.author.date` when it is a string that parses. -/
def new_commit_from (parseDate : String → Option Int) (value : JVal) : Commit :=
  { url := ((value.index "html_url").asStr).getD "",
    ts := (((value.index "commit").index "author").index "date").asStr.bind parseDate }

/-- Model of `GTApi::get_first_commit` (gitee.rs line 310): HEAD-probe page 1 with page size
1, compute the last page from the `total_count` header (defaulting to 1 when the
header is absent), GET that page, and return its first element as the first commit
(`none` when the page is empty or not an array). -/
def GTApi.get_first_commit (parseDate : String → Option Int) (http : Http)
    (owner repo ref_ : String) : Except String (Option Commit) :=
  let head_response := http.head (commitsUrl owner repo ref_ 1)
  match get_last_page head_response.totalCountHeader with
  | .error e => .error e
  | .ok lp =>
      let last_page := lp.getD 1
      let response := http.get (commitsUrl owner repo ref_ last_page)
      if !response.statusSuccess then .error "get_first_commit failed!"
      else
        match response.body with
        | none => .error "invalid json body"
        | some body_json =>
            match body_json.asArr.bind List.head? with
            | some commit => .ok (some (new_commit_from parseDate commit))
            | none => .ok none

/-- Model of `GTApi::get_latest_commit` (gitee.rs line 343): GET page 1 with page size 1 and
return its first element, or `Commit::default()` when the body is an empty array or
not an array. (The error string really is `get_first_commit failed!` in the
source.) -/
def GTApi.get_latest_commit (parseDate : String → Option Int) (http : Http)
    (owner repo ref_ : String) : Except String Commit :=
  let response := http.get (commitsUrl owner repo ref_ 1)
  if !response.statusSuccess then .error "get_first_commit failed!"
  else
    match response.body with
    | none => .error "invalid json body"
    | some body_json =>
        match body_json.asArr.bind List.head? with
        | some commit => .ok (new_commit_from parseDate commit)
        | none => .ok Commit.default

/-- Model of `GTApi::get_languages` (gitee.rs line 334): the network call is commented out in
the source; the function unconditionally returns `Ok(None)` and consults no
transport (it takes no `Http` argument at all). -/
def GTApi.get_languages (owner repo : String) :
    Except String (Option (List (String × Int))) :=
  .ok none

/-- Model of `GTApi::get_repository` (gitee.rs line 425): build a `PartRepository` from the
JSON body. `description`, `license`, `topics` and `html_url` go through
`Value::to_string` (JSON rendering, so strings keep their quotes), while
`default_branch` uses `Value::as_str` and `stargazers_count` uses `Value::as_i64`. -/
def GTApi.get_repository (http : Http) (owner repo : String) :
    Except String PartRepository :=
  let response := http.get (repoApiUrl owner repo)
  if !response.statusSuccess then .error "get_repository failed!"
  else
    match response.body with
    | none => .error "invalid json body"
    | some body_json =>
        .ok { default_branch := ((body_json.get "default_branch").bind JVal.asStr).getD "",
              description := ((body_json.get "description").map JVal.render).getD "",
              license := (body_json.get "license").map (fun val => [val.render]),
              stargazers_count := ((body_json.get "stargazers_count").bind JVal.asInt).getD 0,
              topics := ((body_json.get "topics").map (fun val => [val.render])).getD [],
              html_url := ((body_json.get "html_url").map JVal.render).getD "" }

/-- Rust `i64 as usize` on a 64-bit target: reinterpretation modulo `2^64`
(negative values wrap to huge numbers). -/
def usizeOfInt (i : Int) : Nat := (i % (2 ^ 64)).toNat

/-- Model of `chrono::Duration::num_days` of a duration given in seconds: truncating
division by 86400. -/
def numDays (secs : Int) : Int := Int.tdiv secs 86400

/-- The per-commit step of `GTApi::get_participation_stats` (gitee.rs lines
401-415): read `commit.commit.author.date`; when absent or unparseable the commit
is skipped (only a message is printed); otherwise
`week_index = ((created_at - begin_date).num_days() as usize) / 7` and the slot is
incremented only when `week_index < 52`. -/
def processCommit (parseDate : String → Option Int) (begin_date : Int)
    (hist : List Int) (commit : JVal) : List Int :=
  match (((commit.index "commit").index "author").index "date").asStr with
  | none => hist
  | some commit_date_str =>
      match parseDate commit_date_str with
      | none => hist
      | some created_at =>
          let week_index := usizeOfInt (numDays (created_at - begin_date)) / 7
          if week_index < 52 then hist.set week_index (hist.getD week_index 0 + 1)
          else hist

/-- The pagination loop of `GTApi::get_participation_stats` (gitee.rs lines
387-418), denoted over the list of successive page responses (`pages.get 0` is the
response to `page=1`, and so on). A page whose body is an empty array or not an
array terminates the loop; an exhausted response list stands for a server whose
remaining pages are empty. A non-success status or invalid JSON is an error. -/
def participationPages (parseDate : String → Option Int) (begin_date : Int) :
    List HttpResponse → List Int → Except String (List Int)
  | [], hist => .ok hist
  | response :: rest, hist =>
      if !response.statusSuccess then .error "get_first_commit failed!"
      else
        match response.body with
        | none => .error "invalid json body"
        | some body_json =>
            match body_json.asArr with
            | none => .ok hist
            | some [] => .ok hist
            | some array =>
                participationPages parseDate begin_date rest
                  (array.foldl (processCommit parseDate begin_date) hist)

/-- Model of `GTApi::get_participation_stats` (gitee.rs line 383): `begin_date = now − 365
days`, histogram of 52 zero-initialised slots filled by the pagination loop (the
`all` field of the returned `ParticipationStats`). -/
def GTApi.get_participation_stats (parseDate : String → Option Int) (now : Int)
    (pages : List HttpResponse) : Except String (List Int) :=
  participationPages parseDate (now - 86400 * 365) pages (List.replicate 52 0)

/-- One repository reference of a landscape item. -/
structure RepositoryEntry where
  url : String

/-- One landscape item: optionally a list of repository references. -/
structure LandscapeItem where
  repositories : Option (List RepositoryEntry)

/-- Boolean lexicographic `≤` on character lists (code-point order; for UTF-8
strings this coincides with Rust's byte-wise `Ord` on `String`). -/
def charListLe : List Char → List Char → Bool
  | [], _ => true
  | _ :: _, [] => false
  | a :: xs, b :: ys => if a = b then charListLe xs ys else decide (a.toNat < b.toNat)

/-- Lexicographic `≤` on strings, as used by Rust's `Vec::sort` on `Vec<String>`. -/
def strLe (a b : String) : Bool := charListLe a.data b.data

/-- Rust `Vec::dedup`: remove consecutive repeated elements. -/
def rustDedup {α : Type} [DecidableEq α] : List α → List α
  | [] => []
  | [a] => [a]
  | a :: b :: rest =>
      if a = b then rustDedup (b :: rest) else a :: rustDedup (b :: rest)

/-- The URL extraction of `collect_gitee_data` (gitee.rs lines 70-82): collect the
repository URLs of all items that match `GITEE_REPO_URL`, sort, dedup. -/
def extractUrls (items : List LandscapeItem) : List String :=
  rustDedup (List.insertionSort (fun a b => strLe a b = true) (items.flatMap (fun item =>
    (item.repositories.getD []).filterMap (fun repo =>
      if giteeRepoUrlIsMatch repo.url then some repo.url else none))))

/-- Outcome of reading and deserialising the cache file (gitee.rs lines 43-51):
an I/O error and a corrupt payload are logged and treated like an absent cache. -/
inductive CacheReadOutcome where
  | ioError
  | absent
  | corrupt
  | valid (d : GiteeData)

/-- The `cached_data` value after the cache-reading match of `collect_gitee_data`. -/
def cachedOf : CacheReadOutcome → Option GiteeData
  | .valid d => some d
  | _ => none

/-- Token parsing of `collect_gitee_data` (gitee.rs lines 54-57): the `GITEE_TOKENS`
environment variable split on commas; an unset or empty variable yields no tokens. -/
def parseTokens (env_val : Option String) : Option (List String) :=
  match env_val with
  | some tokens => if tokens ≠ "" then some (strSplitOnChar tokens ',') else none
  | none => none

/-- The `GT` trait (gitee.rs line 177): the eight operations a client must support,
as consumed by `collect_repository_data`. -/
structure GTOracle where
  get_contributors_count : String → String → Except String Nat
  get_license : String → String → Except String String
  get_first_commit : String → String → String → Except String (Option Commit)
  get_languages : String → String → Except String (Option (List (String × Int)))
  get_latest_commit : String → String → String → Except String Commit
  get_latest_release : String → String → Except String (Option Release)
  get_participation_stats : String → String → Except String (List Int)
  get_repository : String → String → Except String PartRepository

/-- Model of `collect_repository_data` (gitee.rs line 136): the ordered fetch sequence; the
first failing call aborts the whole repository (the `?` operator), otherwise the
record is assembled with `generated_at = Utc::now()`. -/
def collect_repository_data (now : Int) (gt : GTOracle) (repo_url : String) :
    Except String RepositoryGiteeData := do
  let (owner, repo) ← get_owner_and_repo repo_url
  let gt_repo ← gt.get_repository owner repo
  let contributors_count ← gt.get_contributors_count owner repo
  let license ← gt.get_license owner repo
  let first_commit ← gt.get_first_commit owner repo gt_repo.default_branch
  let languages ← gt.get_languages owner repo
  let latest_commit ← gt.get_latest_commit owner repo gt_repo.default_branch
  let latest_release ← gt.get_latest_release owner repo
  let participation_stats ← gt.get_participation_stats owner repo
  return { generated_at := now,
           contributors := { count := contributors_count,
                             url := "https://gitee.com/" ++ owner ++ "/" ++ repo ++
                               "/graphs/contributors" },
           description := gt_repo.description,
           first_commit := first_commit,
           languages := languages,
           latest_commit := latest_commit,
           latest_release := latest_release,
           license := some license,
           participation_stats := participation_stats,
           stars := gt_repo.stargazers_count,
           topics := gt_repo.topics,
           url := gt_repo.html_url }

/-- The cache-freshness test of `collect_gitee_data` (gitee.rs lines 95-103): the
cached record for `url`, provided `generated_at + Duration::days(GITEE_CACHE_TTL) >
Utc::now()`. -/
def lookupFresh (cached_data : Option GiteeData) (now : Int) (url : String) :
    Option RepositoryGiteeData :=
  cached_data.bind (fun cache => (cache.lookup url).bind (fun repo =>
    if repo.generated_at + 86400 * GITEE_CACHE_TTL > now then some repo else none))

/-- The per-URL task body of `collect_gitee_data` (gitee.rs lines 91-112): reuse a
fresh cached record; otherwise fetch when a client pool exists; otherwise the error
`no tokens provided`. -/
def resolveUrl (now : Int) (cached_data : Option GiteeData) (hasTokens : Bool)
    (gt : GTOracle) (url : String) : Except String RepositoryGiteeData :=
  match lookupFresh cached_data now url with
  | some cached_repo => .ok cached_repo
  | none =>
      if hasTokens then collect_repository_data now gt url
      else .error "no tokens provided"

/-- The `BTreeMap` assembled by `collect_gitee_data` (gitee.rs lines 90-125): one
task per extracted URL, failed tasks filtered out. The extracted URLs are already
sorted and distinct, so the association list below has exactly the `BTreeMap`'s
(key-sorted) contents. The result does not depend on the `buffer_unordered`
scheduling because tasks for distinct URLs are independent and keyed by URL. -/
def computedGiteeData (now : Int) (cacheRead : CacheReadOutcome)
    (env_tokens : Option String) (items : List LandscapeItem) (gt : GTOracle) :
    GiteeData :=
  (extractUrls items).filterMap (fun url =>
    (resolveUrl now (cachedOf cacheRead) (parseTokens env_tokens).isSome gt url).toOption.map
      (fun r => (url, r)))

/-- Model of `collect_gitee_data` (gitee.rs line 39): compute the data, then write it to the
cache — the write's `?` operator (line 128) propagates a cache-write fault as the
function's own error. -/
def collect_gitee_data (now : Int) (cacheRead : CacheReadOutcome)
    (env_tokens : Option String) (items : List LandscapeItem) (gt : GTOracle)
    (cacheWriteOk : Bool) : Except String GiteeData :=
  let gitee_data := computedGiteeData now cacheRead env_tokens items gt
  if cacheWriteOk then .ok gitee_data else .error "error writing gitee cache file"

/-- The payload persisted to the cache file by a run: the computed data when the
write succeeds. -/
def persistedPayload (now : Int) (cacheRead : CacheReadOutcome)
    (env_tokens : Option String) (items : List LandscapeItem) (gt : GTOracle)
    (cacheWriteOk : Bool) : Option GiteeData :=
  if cacheWriteOk then some (computedGiteeData now cacheRead env_tokens items gt)
  else none

/-- A reference collection time: 365 days after epoch, so `begin_date = 0`. -/
def nowRef : Int := 365 * 86400

/-- A concrete date parser for the scenarios: three recognised date strings. -/
def dateParserRef : String → Option Int := fun s =>
  if s = "now-minus-1-day" then some (364 * 86400)
  else if s = "now-minus-2-days" then some (363 * 86400)
  else if s = "now-minus-400-days" then some (-35 * 86400)
  else none

/-- A commit JSON carrying `commit.author.date = s`. -/
def commitJsonWithDate (s : String) : JVal :=
  .obj [("commit", .obj [("author", .obj [("date", .str s)])])]

/-- A successful page response whose body is the given array of commits. -/
def pageOf (commits : List JVal) : HttpResponse :=
  { statusSuccess := true, totalCountHeader := none, body := some (.arr commits) }

/-- A date parser recognising nothing (dates are irrelevant to these scenarios). -/
def pdNone : String → Option Int := fun _ => none

/-- A landscape item with one Gitee repository. -/
def itemGiteeA : LandscapeItem := ⟨some [⟨"https://gitee.com/a/r"⟩]⟩

/-- A concrete cached repository record generated at time 1000. -/
def recA : RepositoryGiteeData :=
  { generated_at := 1000,
    contributors := ⟨0, "https://gitee.com/a/r/graphs/contributors"⟩,
    description := "", first_commit := none, languages := none,
    latest_commit := Commit.default, latest_release := none, license := some "MIT",
    participation_stats := List.replicate 52 0, stars := 0, topics := [],
    url := "https://gitee.com/a/r" }

/-- The same record, stale: generated 8 days before time 1000. -/
def recStale : RepositoryGiteeData := { recA with generated_at := 1000 - 8 * 86400 }

/-- A cache holding `recA`. -/
def cacheA : GiteeData := [("https://gitee.com/a/r", recA)]

/-- A trivial client: every call succeeds with a simple value. -/
def oracleTriv : GTOracle :=
  { get_contributors_count := fun _ _ => .ok 0,
    get_license := fun _ _ => .ok "MIT",
    get_first_commit := fun _ _ _ => .ok none,
    get_languages := fun owner repo => GTApi.get_languages owner repo,
    get_latest_commit := fun _ _ _ => .ok Commit.default,
    get_latest_release := fun _ _ => .ok none,
    get_participation_stats := fun _ _ => .ok (List.replicate 52 0),
    get_repository := fun _ _ =>
      .ok { default_branch := "master", description := "", license := none,
            stargazers_count := 0, topics := [], html_url := "https://gitee.com/a/r" } }

/-- The record `collect_repository_data` builds from `oracleTriv` at time 1000. -/
def recFetchA : RepositoryGiteeData :=
  { generated_at := 1000,
    contributors := ⟨0, "https://gitee.com/a/r/graphs/contributors"⟩,
    description := "", first_commit := none, languages := none,
    latest_commit := Commit.default, latest_release := none, license := some "MIT",
    participation_stats := List.replicate 52 0, stars := 0, topics := [],
    url := "https://gitee.com/a/r" }

/-- Like `oracleTriv`, but the license call fails for owner `b`. -/
def oracleLicenseFailsB : GTOracle :=
  { oracleTriv with
    get_license := fun owner _ =>
      if owner = "b" then .error "get_license failed!" else .ok "MIT" }

/-- Landscape items with three Gitee repositories (owners a, b, c). -/
def itemsABC : List LandscapeItem :=
  [⟨some [⟨"https://gitee.com/a/r"⟩, ⟨"https://gitee.com/b/r"⟩, ⟨"https://gitee.com/c/r"⟩]⟩]

/-- The three-commit newest-first history used for the C5 witness. -/
def historyC5 : List JVal :=
  [.obj [("html_url", .str "u3")], .obj [("html_url", .str "u2")],
   .obj [("html_url", .str "u1")]]

/-- The transport for the C5 witness: `total_count = 3`; page 3 holds the oldest
commit; every other page is empty. -/
def httpC5 : Http :=
  { get := fun url =>
      if url = commitsUrl "o" "r" "master" 3 then
        ⟨true, some "3", some (.arr ((historyC5.drop 2).take 1))⟩
      else ⟨true, some "3", some (.arr [])⟩,
    head := fun _ => ⟨true, some "3", none⟩ }

/-- The transport for the header-absent part of the C5 witness: no `total_count`
header; page 1 holds the single (hence both first and latest) commit. -/
def httpC5single : Http :=
  { get := fun _ => ⟨true, none, some (.arr (historyC5.take 1))⟩,
    head := fun _ => ⟨true, none, none⟩ }

/-- The transport for the C6 counterexample: the repository endpoint answers with an
`html_url` string; commit listings are empty. -/
def httpRepoQuoted : Http :=
  { get := fun url =>
      if url = repoApiUrl "o" "r" then
        ⟨true, none, some (.obj [("default_branch", .str "master"),
                                 ("html_url", .str "https://gitee.com/o/r")])⟩
      else ⟨true, none, some (.arr [])⟩,
    head := fun _ => ⟨true, none, none⟩ }

/-- A client whose JSON-facing calls go through the `GTApi` functions over
`httpRepoQuoted`. -/
def oracleQuoted : GTOracle :=
  { get_contributors_count := fun _ _ => .ok 0,
    get_license := fun _ _ => .ok "MIT",
    get_first_commit := GTApi.get_first_commit pdNone httpRepoQuoted,
    get_languages := fun owner repo => GTApi.get_languages owner repo,
    get_latest_commit := GTApi.get_latest_commit pdNone httpRepoQuoted,
    get_latest_release := fun _ _ => .ok none,
    get_participation_stats := fun _ _ => GTApi.get_participation_stats pdNone nowRef [],
    get_repository := GTApi.get_repository httpRepoQuoted }

/-- A landscape item holding the repository of owner `o`. -/
def itemO : LandscapeItem := ⟨some [⟨"https://gitee.com/o/r"⟩]⟩

/-- The record the C6 counterexample run builds. -/
def recO : RepositoryGiteeData :=
  { generated_at := 1000,
    contributors := ⟨0, "https://gitee.com/o/r/graphs/contributors"⟩,
    description := "", first_commit := none, languages := none,
    latest_commit := Commit.default, latest_release := none, license := some "MIT",
    participation_stats := List.replicate 52 0, stars := 0, topics := [],
    url := "\"https://gitee.com/o/r\"" }

/-- The transport for the C10 witness: every commit listing is empty. -/
def httpEmptyCommits : Http :=
  { get := fun _ => ⟨true, none, some (.arr [])⟩,
    head := fun _ => ⟨true, none, none⟩ }

/-! ### Theorems -/

example : giteeRepoUrlIsMatch "https://gitee.com/owner/repo" = true := rfl
example : giteeRepoUrlIsMatch "https://gitee.com/owner/repo/" = true := rfl
example : giteeRepoUrlIsMatch "https://github.com/owner/repo" = false := rfl
example : giteeRepoUrlIsMatch "https://gitee.com/owner" = false := rfl
example : giteeRepoUrlIsMatch "https://gitee.com/owner/repo/extra" = false := rfl
example : (JVal.str "https://gitee.com/o/r").render = "\"https://gitee.com/o/r\"" := rfl

theorem charToNat_inj {a b : Char} (h : a.toNat = b.toNat) : a = b :=
  Char.eq_of_val_eq (UInt32.ext h)

theorem charListLe_total : ∀ xs ys : List Char,
    charListLe xs ys = true ∨ charListLe ys xs = true
  | [], [] => Or.inl rfl
  | [], _ :: _ => Or.inl rfl
  | _ :: _, [] => Or.inr rfl
  | a :: xs, b :: ys => by
      by_cases h : a = b
      · subst h
        simpa [charListLe] using charListLe_total xs ys
      · have hne : a.toNat ≠ b.toNat := fun hn => h (charToNat_inj hn)
        simp only [charListLe, if_neg h, if_neg (Ne.symm h), decide_eq_true_eq]
        omega

theorem charListLe_trans : ∀ xs ys zs : List Char,
    charListLe xs ys = true → charListLe ys zs = true → charListLe xs zs = true
  | [], _, _ => by intro _ _; rfl
  | _ :: _, [], _ => by intro h _; simp [charListLe] at h
  | _ :: _, _ :: _, [] => by intro _ h; simp [charListLe] at h
  | a :: xs, b :: ys, c :: zs => by
      intro h1 h2
      by_cases hab : a = b
      · subst hab
        by_cases hac : a = c
        · subst hac
          simp only [charListLe, if_pos rfl] at h1 h2 ⊢
          exact charListLe_trans xs ys zs h1 h2
        · simpa [charListLe, hac] using h2
      · by_cases hbc : b = c
        · subst hbc
          simpa [charListLe, hab] using h1
        · simp only [charListLe, if_neg hab, decide_eq_true_eq] at h1
          simp only [charListLe, if_neg hbc, decide_eq_true_eq] at h2
          have hac : a.toNat < c.toNat := Nat.lt_trans h1 h2
          have hne : a ≠ c := fun he => by subst he; omega
          simp [charListLe, hne, hac]

theorem charListLe_antisymm : ∀ xs ys : List Char,
    charListLe xs ys = true → charListLe ys xs = true → xs = ys
  | [], [] => by intro _ _; rfl
  | [], _ :: _ => by intro _ h; simp [charListLe] at h
  | _ :: _, [] => by intro h _; simp [charListLe] at h
  | a :: xs, b :: ys => by
      intro h1 h2
      by_cases hab : a = b
      · subst hab
        simp only [charListLe, if_pos rfl] at h1 h2
        rw [charListLe_antisymm xs ys h1 h2]
      · simp only [charListLe, if_neg hab, decide_eq_true_eq] at h1
        simp only [charListLe, if_neg (Ne.symm hab), decide_eq_true_eq] at h2
        omega

theorem strLe_total (a b : String) : strLe a b = true ∨ strLe b a = true :=
  charListLe_total a.data b.data

theorem strLe_trans {a b c : String} (h1 : strLe a b = true) (h2 : strLe b c = true) :
    strLe a c = true :=
  charListLe_trans a.data b.data c.data h1 h2

theorem strLe_antisymm {a b : String} (h1 : strLe a b = true) (h2 : strLe b a = true) :
    a = b :=
  String.ext (charListLe_antisymm a.data b.data h1 h2)

theorem rustDedup_sublist {α : Type} [DecidableEq α] : ∀ l : List α, List.Sublist (rustDedup l) l
  | [] => List.Sublist.refl []
  | [a] => List.Sublist.refl [a]
  | a :: b :: rest => by
      by_cases h : a = b
      · simpa [rustDedup, h] using (rustDedup_sublist (b :: rest)).cons a
      · simpa [rustDedup, h] using (rustDedup_sublist (b :: rest)).cons₂ a

theorem mem_rustDedup {α : Type} [DecidableEq α] (x : α) :
    ∀ l : List α, x ∈ rustDedup l ↔ x ∈ l
  | [] => Iff.rfl
  | [a] => Iff.rfl
  | a :: b :: rest => by
      by_cases h : a = b
      · subst h
        simp only [rustDedup, eq_self_iff_true, if_true]
        rw [mem_rustDedup x (a :: rest)]
        simp only [List.mem_cons]
        tauto
      · simp only [rustDedup, if_neg h, List.mem_cons]
        rw [mem_rustDedup x (b :: rest)]
        simp

theorem rustDedup_pairwise {α : Type} [DecidableEq α] {R : α → α → Prop} {l : List α}
    (h : l.Pairwise R) : (rustDedup l).Pairwise R :=
  h.sublist (rustDedup_sublist l)

theorem rustDedup_nodup_of_sorted : ∀ l : List String,
    l.Pairwise (fun a b => strLe a b = true) → (rustDedup l).Nodup
  | [] => fun _ => List.nodup_nil
  | [a] => fun _ => List.nodup_singleton a
  | a :: b :: rest => by
      intro h
      have htail : (b :: rest).Pairwise (fun a b => strLe a b = true) := h.of_cons
      by_cases hab : a = b
      · simpa [rustDedup, hab] using rustDedup_nodup_of_sorted (b :: rest) htail
      · simp only [rustDedup, if_neg hab, List.nodup_cons]
        refine ⟨?_, rustDedup_nodup_of_sorted (b :: rest) htail⟩
        intro hmem
        have hmem2 : a ∈ b :: rest := (mem_rustDedup a (b :: rest)).mp hmem
        have hle : strLe a a = true := by
          rcases List.rel_of_pairwise_cons h hmem2 with hle1
          exact hle1
        rcases List.mem_cons.mp hmem2 with rfl | hrest
        · exact hab rfl
        · have h1 : strLe a b = true := List.rel_of_pairwise_cons h (List.mem_cons_self b rest)
          have h2 : strLe b a = true := List.rel_of_pairwise_cons htail hrest
          exact hab (strLe_antisymm h1 h2)

theorem extractUrls_pairwise (items : List LandscapeItem) :
    (extractUrls items).Pairwise (fun a b => strLe a b = true) := by
  haveI : IsTotal String (fun a b => strLe a b = true) := ⟨strLe_total⟩
  haveI : IsTrans String (fun a b => strLe a b = true) := ⟨fun _ _ _ => strLe_trans⟩
  exact rustDedup_pairwise (List.sorted_insertionSort _ _)

theorem extractUrls_nodup (items : List LandscapeItem) :
    (extractUrls items).Nodup := by
  haveI : IsTotal String (fun a b => strLe a b = true) := ⟨strLe_total⟩
  haveI : IsTrans String (fun a b => strLe a b = true) := ⟨fun _ _ _ => strLe_trans⟩
  exact rustDedup_nodup_of_sorted _ (List.sorted_insertionSort _ _)

theorem mem_extractUrls (items : List LandscapeItem) (u : String) :
    u ∈ extractUrls items ↔
      (giteeRepoUrlIsMatch u = true ∧
       ∃ item ∈ items, ∃ repo ∈ item.repositories.getD [], repo.url = u) := by
  rw [extractUrls, mem_rustDedup, List.mem_insertionSort, List.mem_flatMap]
  constructor
  · rintro ⟨item, hitem, hmem⟩
    rcases List.mem_filterMap.mp hmem with ⟨repo, hrepo, heq⟩
    by_cases hm : giteeRepoUrlIsMatch repo.url
    · simp only [if_pos hm] at heq
      obtain rfl : repo.url = u := Option.some.inj heq
      exact ⟨hm, item, hitem, repo, hrepo, rfl⟩
    · simp [hm] at heq
  · rintro ⟨hm, item, hitem, repo, hrepo, rfl⟩
    refine ⟨item, hitem, List.mem_filterMap.mpr ⟨repo, hrepo, ?_⟩⟩
    simp [hm]

theorem mem_computedGiteeData (now : Int) (cr : CacheReadOutcome) (env_tokens : Option String)
    (items : List LandscapeItem) (gt : GTOracle) (url : String) (r : RepositoryGiteeData) :
    (url, r) ∈ computedGiteeData now cr env_tokens items gt ↔
      (url ∈ extractUrls items ∧
       resolveUrl now (cachedOf cr) (parseTokens env_tokens).isSome gt url = .ok r) := by
  rw [computedGiteeData, List.mem_filterMap]
  constructor
  · rintro ⟨u, hu, heq⟩
    cases hres : resolveUrl now (cachedOf cr) (parseTokens env_tokens).isSome gt u with
    | error e => rw [hres] at heq; simp [Except.toOption] at heq
    | ok rr =>
        rw [hres] at heq
        simp only [Except.toOption, Option.map_some] at heq
        obtain ⟨rfl, rfl⟩ := Prod.mk.inj (Option.some.inj heq)
        exact ⟨hu, hres⟩
  · rintro ⟨hu, hres⟩
    exact ⟨url, hu, by simp [hres, Except.toOption]⟩

theorem collect_repository_data_isOk_false_of_license (now : Int) (gt : GTOracle)
    (url owner repo e : String)
    (hor : get_owner_and_repo url = .ok (owner, repo))
    (hlic : gt.get_license owner repo = .error e) :
    (collect_repository_data now gt url).isOk = false := by
  unfold collect_repository_data
  rw [hor]
  simp only [bind, Except.bind]
  cases h1 : gt.get_repository owner repo with
  | error e1 => rfl
  | ok gt_repo =>
      cases h2 : gt.get_contributors_count owner repo with
      | error e2 => rfl
      | ok cc => rw [hlic]; rfl

/-- Claim C7: for every input catalog, the URL extractor produces a
lexicographically sorted, duplicate-free sequence containing exactly the distinct
repository URLs of the catalog that match the platform pattern; non-matching URLs
are excluded. -/
theorem extract_urls_spec (items : List LandscapeItem) :
    (extractUrls items).Pairwise (fun a b => strLe a b = true)
    ∧ (extractUrls items).Nodup
    ∧ ∀ u, u ∈ extractUrls items ↔
        (giteeRepoUrlIsMatch u = true ∧
         ∃ item ∈ items, ∃ repo ∈ item.repositories.getD [], repo.url = u) :=
  ⟨extractUrls_pairwise items, extractUrls_nodup items, mem_extractUrls items⟩

/-- Claim C4: a cached record for a URL is reused verbatim — the task resolves to
`Ok` with exactly the cached record, touching no client — precisely when
`generated_at + Duration::days(GITEE_CACHE_TTL) > now` with `GITEE_CACHE_TTL = 7`;
otherwise the pipeline falls through to a fresh fetch attempt (when tokens exist)
or the no-tokens error. -/
theorem cache_ttl_reuse (now : Int) (cache : GiteeData) (url : String)
    (repo : RepositoryGiteeData) (hasTokens : Bool) (gt : GTOracle)
    (hlook : cache.lookup url = some repo) :
    (repo.generated_at + 86400 * GITEE_CACHE_TTL > now →
       resolveUrl now (some cache) hasTokens gt url = .ok repo)
    ∧ (¬(repo.generated_at + 86400 * GITEE_CACHE_TTL > now) →
       resolveUrl now (some cache) hasTokens gt url =
         if hasTokens then collect_repository_data now gt url
         else .error "no tokens provided") := by
  constructor
  · intro hfresh
    simp [resolveUrl, lookupFresh, hlook, hfresh]
  · intro hstale
    simp [resolveUrl, lookupFresh, hlook, hstale]

/-- Claim C8: with an empty or absent token list, no fetch is attempted (the
outcome is independent of the client oracle); the result consists of exactly the
cache-derived fresh entries; every repository lacking a fresh cache entry is
absent from the result; and the run completes successfully, persisting exactly
those entries. -/
theorem no_tokens_cache_only (now : Int) (cr : CacheReadOutcome) (env_tokens : Option String)
    (items : List LandscapeItem) (gt gt2 : GTOracle) (hnone : parseTokens env_tokens = none) :
    computedGiteeData now cr env_tokens items gt =
      (extractUrls items).filterMap (fun url =>
        (lookupFresh (cachedOf cr) now url).map (fun r => (url, r)))
    ∧ computedGiteeData now cr env_tokens items gt = computedGiteeData now cr env_tokens items gt2
    ∧ (∀ url r, lookupFresh (cachedOf cr) now url = none →
        (url, r) ∉ computedGiteeData now cr env_tokens items gt)
    ∧ collect_gitee_data now cr env_tokens items gt true =
        .ok (computedGiteeData now cr env_tokens items gt)
    ∧ persistedPayload now cr env_tokens items gt true =
        some (computedGiteeData now cr env_tokens items gt) := by
  have key : ∀ (g : GTOracle) (url : String),
      (resolveUrl now (cachedOf cr) (parseTokens env_tokens).isSome g url).toOption =
        lookupFresh (cachedOf cr) now url := by
    intro g url
    rw [hnone]
    cases h : lookupFresh (cachedOf cr) now url with
    | some r => simp [resolveUrl, h, Except.toOption]
    | none => simp [resolveUrl, h, Except.toOption]
  refine ⟨?_, ?_, ?_, rfl, rfl⟩
  · unfold computedGiteeData
    exact List.filterMap_congr (fun url _ => by rw [key gt])
  · unfold computedGiteeData
    refine List.filterMap_congr (fun url _ => ?_)
    rw [key gt, key gt2]
  · intro url r hmiss hmem
    rcases (mem_computedGiteeData now cr env_tokens items gt url r).mp hmem with ⟨_, hres⟩
    have : (resolveUrl now (cachedOf cr) (parseTokens env_tokens).isSome gt url).toOption =
        none := by rw [key gt, hmiss]
    rw [hres] at this
    exact Option.noConfusion this

/-- Claim C2 (amended): a fault while reading the cache, like a corrupt cache
payload, is treated as no cache and does not abort the run, but a fault while
writing the collection result to the cache at the end of a run aborts
`collect_gitee_data`: the cache-write error is propagated (line 128's `?`) and the
computed result is not returned. -/
theorem cache_fault_handling (now : Int) (env_tokens : Option String)
    (items : List LandscapeItem) (gt : GTOracle) :
    collect_gitee_data now .ioError env_tokens items gt true =
      collect_gitee_data now .absent env_tokens items gt true
    ∧ collect_gitee_data now .corrupt env_tokens items gt true =
        collect_gitee_data now .absent env_tokens items gt true
    ∧ ∀ cr, (collect_gitee_data now cr env_tokens items gt false).isOk = false :=
  ⟨rfl, rfl, fun _ => rfl⟩

/-- Claim C3: the final `CollectionResult` (and the persisted cache payload, which
is the same value) contains exactly the URLs whose resolution — fresh cache reuse
or the full fetch sequence — succeeded. In particular, when a repository's license
call fails and it has no fresh cache entry, that repository is dropped entirely
from the result, and the run still returns `Ok` to the caller. -/
theorem partial_failure_spec (now : Int) (cr : CacheReadOutcome) (env_tokens : Option String)
    (items : List LandscapeItem) (gt : GTOracle) :
    (∀ url r, (url, r) ∈ computedGiteeData now cr env_tokens items gt ↔
       (url ∈ extractUrls items ∧
        resolveUrl now (cachedOf cr) (parseTokens env_tokens).isSome gt url = .ok r))
    ∧ (∀ url owner repo e, get_owner_and_repo url = .ok (owner, repo) →
        gt.get_license owner repo = .error e →
        lookupFresh (cachedOf cr) now url = none →
        ∀ r, (url, r) ∉ computedGiteeData now cr env_tokens items gt)
    ∧ collect_gitee_data now cr env_tokens items gt true =
        .ok (computedGiteeData now cr env_tokens items gt)
    ∧ persistedPayload now cr env_tokens items gt true =
        some (computedGiteeData now cr env_tokens items gt) := by
  refine ⟨fun url r => mem_computedGiteeData now cr env_tokens items gt url r, ?_, rfl, rfl⟩
  intro url owner repo e hor hlic hmiss r hmem
  rcases (mem_computedGiteeData now cr env_tokens items gt url r).mp hmem with ⟨_, hres⟩
  simp only [resolveUrl, hmiss] at hres
  by_cases ht : (parseTokens env_tokens).isSome
  · rw [if_pos ht] at hres
    have := collect_repository_data_isOk_false_of_license now gt url owner repo e hor hlic
    rw [hres] at this
    simp [Except.isOk, Except.toBool] at this
  · rw [if_neg ht] at hres
    cases hres

/-- Claim C6 (amended): every entry of the final result set is keyed by a URL
matching `^https://gitee.com/<owner>/<repo>[/]$` (the keys come from the
regex-filtered landscape URLs). The frozen claim asserted this of the record's
`url` field instead, which actually holds `Value::to_string` of the API's
`html_url` — a JSON rendering that keeps the quotes — and therefore need not match
the pattern (see `quoted_html_url_counterexample`). -/
theorem result_keys_match_pattern (now : Int) (cr : CacheReadOutcome)
    (env_tokens : Option String) (items : List LandscapeItem) (gt : GTOracle)
    (url : String) (r : RepositoryGiteeData)
    (hmem : (url, r) ∈ computedGiteeData now cr env_tokens items gt) :
    giteeRepoUrlIsMatch url = true :=
  ((mem_extractUrls items url).mp
    ((mem_computedGiteeData now cr env_tokens items gt url r).mp hmem).1).1

/-- Claim C9: `GTApi::get_languages` always returns `Ok(None)` without any network
call (its model consults no transport), so every freshly fetched repository
record has an absent `languages` field. -/
theorem languages_none_spec :
    (∀ owner repo, GTApi.get_languages owner repo = .ok none)
    ∧ ∀ (now : Int) (gt : GTOracle) (url : String) (r : RepositoryGiteeData),
        gt.get_languages = (fun owner repo => GTApi.get_languages owner repo) →
        collect_repository_data now gt url = .ok r → r.languages = none := by
  refine ⟨fun _ _ => rfl, ?_⟩
  intro now gt url r hlang h
  unfold collect_repository_data at h
  cases h0 : get_owner_and_repo url with
  | error e =>
      simp only [h0, bind, Except.bind] at h
      exact Except.noConfusion h
  | ok p =>
    obtain ⟨owner, repo⟩ := p
    simp only [h0, bind, Except.bind] at h
    cases h1 : gt.get_repository owner repo with
    | error e =>
        simp only [h1] at h
        exact Except.noConfusion h
    | ok gt_repo =>
      simp only [h1] at h
      cases h2 : gt.get_contributors_count owner repo with
      | error e =>
        simp only [h2] at h
        exact Except.noConfusion h
      | ok cc =>
        simp only [h2] at h
        cases h3 : gt.get_license owner repo with
        | error e =>
        simp only [h3] at h
        exact Except.noConfusion h
        | ok lic =>
          simp only [h3] at h
          cases h4 : gt.get_first_commit owner repo gt_repo.default_branch with
          | error e =>
        simp only [h4] at h
        exact Except.noConfusion h
          | ok fc =>
            simp only [h4, hlang, GTApi.get_languages] at h
            cases h5 : gt.get_latest_commit owner repo gt_repo.default_branch with
            | error e =>
        simp only [h5] at h
        exact Except.noConfusion h
            | ok lc =>
              simp only [h5] at h
              cases h6 : gt.get_latest_release owner repo with
              | error e =>
        simp only [h6] at h
        exact Except.noConfusion h
              | ok lr =>
                simp only [h6] at h
                cases h7 : gt.get_participation_stats owner repo with
                | error e =>
        simp only [h7] at h
        exact Except.noConfusion h
                | ok ps =>
                  simp only [h7, pure, Except.pure, Except.ok.injEq] at h
                  rw [← h]

/-- Claim C10: when the page-1 commit listing body is an empty array or not an
array, `get_latest_commit` succeeds with `Commit::default()` (empty URL, no
timestamp), whereas `get_first_commit` in the same situation (with the
`total_count` header also absent) succeeds with `None`. -/
theorem empty_commits_defaults (pd : String → Option Int) (http : Http)
    (owner repo ref_ : String) (j : JVal)
    (hsucc : (http.get (commitsUrl owner repo ref_ 1)).statusSuccess = true)
    (hbody : (http.get (commitsUrl owner repo ref_ 1)).body = some j)
    (hempty : j.asArr.bind List.head? = none) :
    GTApi.get_latest_commit pd http owner repo ref_ = .ok Commit.default
    ∧ ((http.head (commitsUrl owner repo ref_ 1)).totalCountHeader = none →
       GTApi.get_first_commit pd http owner repo ref_ = .ok none) := by
  constructor
  · simp [GTApi.get_latest_commit, hsucc, hbody, hempty]
  · intro hhdr
    simp [GTApi.get_first_commit, hhdr, get_last_page, hsucc, hbody, hempty]

theorem head?_take_one_drop {α : Type} (l : List α) (n : Nat) :
    ((l.drop n).take 1).head? = l[n]? := by
  have h1 : ((l.drop n).take 1).head? = (l.drop n).head? := by
    cases l.drop n <;> simp
  rw [h1, List.head?_eq_getElem?, List.getElem?_drop, Nat.add_zero]

/-- Claim C5: in `get_first_commit` over a newest-first commit history of length
`N` probed with page size 1, the computed last page is the parsed value of the
`total_count` response header (so `N`); an absent header makes the last page
default to 1, in which case the page-1 (newest) commit is returned; and the single
commit fetched from the last page — the history's last element — is the
chronologically earliest commit, returned as the repository's first commit. -/
theorem first_commit_spec (pd : String → Option Int) (http : Http)
    (owner repo ref_ sN : String) (N : Nat) (history : List JVal)
    (hlen : history.length = N)
    (hparse : parseUsize sN = some N)
    (hhead : (http.head (commitsUrl owner repo ref_ 1)).totalCountHeader = some sN)
    (hsucc : (http.get (commitsUrl owner repo ref_ N)).statusSuccess = true)
    (hbody : (http.get (commitsUrl owner repo ref_ N)).body =
       some (.arr ((history.drop (N - 1)).take 1))) :
    get_last_page (some sN) = .ok (some N)
    ∧ get_last_page none = .ok none
    ∧ GTApi.get_first_commit pd http owner repo ref_ =
        .ok (history.getLast?.map (new_commit_from pd))
    ∧ ∀ http2 : Http,
        (http2.head (commitsUrl owner repo ref_ 1)).totalCountHeader = none →
        (http2.get (commitsUrl owner repo ref_ 1)).statusSuccess = true →
        (http2.get (commitsUrl owner repo ref_ 1)).body = some (.arr (history.take 1)) →
        GTApi.get_first_commit pd http2 owner repo ref_ =
          .ok (history.head?.map (new_commit_from pd)) := by
  have hlp : get_last_page (some sN) = .ok (some N) := by
    simp [get_last_page, hparse]
  refine ⟨hlp, rfl, ?_, ?_⟩
  · have hget : ((history.drop (N - 1)).take 1).head? = history.getLast? := by
      rw [head?_take_one_drop, List.getLast?_eq_getElem?, hlen]
    simp only [GTApi.get_first_commit, hhead, hlp, Option.getD_some, hsucc,
      Bool.not_true, Bool.false_eq_true, if_false, hbody, JVal.asArr, Option.some_bind]
    rw [hget]
    cases hLast : history.getLast? with
    | none => simp
    | some c => simp
  · intro http2 hhdr hsucc2 hbody2
    have htake : (history.take 1).head? = history.head? := by
      cases history <;> simp
    simp only [GTApi.get_first_commit, hhdr, get_last_page, Option.getD_none, hsucc2,
      Bool.not_true, Bool.false_eq_true, if_false, hbody2, JVal.asArr, Option.some_bind]
    rw [htake]
    cases hHead : history.head? with
    | none => simp
    | some c => simp

theorem usizeOfInt_of_nonneg {d : Int} (h0 : 0 ≤ d) (hub : d < 2 ^ 63) :
    usizeOfInt d = d.toNat := by
  unfold usizeOfInt
  rw [Int.emod_eq_of_lt h0 (lt_trans hub (by norm_num))]

theorem usizeOfInt_of_neg {d : Int} (hlb : -(2 ^ 63) ≤ d) (hneg : d < 0) :
    usizeOfInt d = (d + 2 ^ 64).toNat := by
  unfold usizeOfInt
  have h1 : d % 2 ^ 64 = (d + 2 ^ 64) % 2 ^ 64 := by omega
  rw [h1, Int.emod_eq_of_lt (by omega) (by omega)]

theorem processCommit_parsed (pd : String → Option Int) (begin_date : Int)
    (hist : List Int) (c : JVal) (t : Int)
    (hdate : (((c.index "commit").index "author").index "date").asStr.bind pd = some t)
    (hlb : -(2 ^ 63) ≤ numDays (t - begin_date)) (hub : numDays (t - begin_date) < 2 ^ 63) :
    processCommit pd begin_date hist c =
      if 0 ≤ numDays (t - begin_date) ∧ (numDays (t - begin_date)).toNat / 7 < 52 then
        hist.set ((numDays (t - begin_date)).toNat / 7)
          (hist.getD ((numDays (t - begin_date)).toNat / 7) 0 + 1)
      else hist := by
  obtain ⟨s, hs, hps⟩ := Option.bind_eq_some.mp hdate
  unfold processCommit
  rw [hs]
  simp only [hps]
  set d := numDays (t - begin_date) with hd
  rcases le_or_lt 0 d with h0 | hneg
  · rw [usizeOfInt_of_nonneg h0 hub]
    by_cases hlt : d.toNat / 7 < 52
    · rw [if_pos hlt, if_pos ⟨h0, hlt⟩]
    · rw [if_neg hlt, if_neg (fun hc => hlt hc.2)]
  · rw [usizeOfInt_of_neg hlb hneg]
    have hge : 2 ^ 63 ≤ (d + 2 ^ 64).toNat := by
      rw [Int.le_toNat (by omega)]
      omega
    have hbig : ¬((d + 2 ^ 64).toNat / 7 < 52) := by
      intro hc
      have := Nat.div_le_div_right (c := 7) hge
      have h52 : (52 : Nat) ≤ 2 ^ 63 / 7 := by norm_num
      omega
    rw [if_neg hbig, if_neg (fun hc => absurd hc.1 (not_le.mpr hneg))]

/-- Claim C1 (amended): in `get_participation_stats`, a commit whose author-date
parses increments exactly the histogram slot
`((created_at - begin_date).num_days() as usize) / 7` when that index lies in
`[0, 52)`, and increments nothing otherwise. Concretely, with
`begin_date = now - 365 days`: a commit dated `now - 1 day` yields week index
`364 / 7 = 52`, which is out of range, so it increments no slot (the frozen claim
expected slot 51 there); a commit dated `now - 400 days` wraps to a huge index and
increments no slot; a commit whose date fails to parse is skipped without raising
an error and increments no slot; a commit dated `now - 2 days` increments slot
51. -/
theorem participation_week_bucketing :
    (∀ (pd : String → Option Int) (begin_date : Int) (hist : List Int) (c : JVal) (t : Int),
      (((c.index "commit").index "author").index "date").asStr.bind pd = some t →
      -(2 ^ 63) ≤ numDays (t - begin_date) → numDays (t - begin_date) < 2 ^ 63 →
      processCommit pd begin_date hist c =
        if 0 ≤ numDays (t - begin_date) ∧ (numDays (t - begin_date)).toNat / 7 < 52 then
          hist.set ((numDays (t - begin_date)).toNat / 7)
            (hist.getD ((numDays (t - begin_date)).toNat / 7) 0 + 1)
        else hist)
    ∧ GTApi.get_participation_stats dateParserRef nowRef
        [pageOf [commitJsonWithDate "now-minus-1-day"]] = .ok (List.replicate 52 0)
    ∧ GTApi.get_participation_stats dateParserRef nowRef
        [pageOf [commitJsonWithDate "now-minus-400-days"]] = .ok (List.replicate 52 0)
    ∧ GTApi.get_participation_stats dateParserRef nowRef
        [pageOf [commitJsonWithDate "not-a-date"]] = .ok (List.replicate 52 0)
    ∧ GTApi.get_participation_stats dateParserRef nowRef
        [pageOf [commitJsonWithDate "now-minus-2-days"]] =
          .ok ((List.replicate 52 0).set 51 1) :=
  ⟨fun pd begin_date hist c t hdate hlb hub =>
     processCommit_parsed pd begin_date hist c t hdate hlb hub, rfl, rfl, rfl, rfl⟩

example : collect_repository_data 1000 oracleTriv "https://gitee.com/a/r" = .ok recFetchA := rfl

example : (computedGiteeData 1000 .absent (some "tok") itemsABC oracleLicenseFailsB).map Prod.fst
    = ["https://gitee.com/a/r", "https://gitee.com/c/r"] := rfl

/-- Witness for C1. -/
theorem participation_week_bucketing_witness :
    processCommit dateParserRef 0 (List.replicate 52 0) (commitJsonWithDate "now-minus-2-days") =
      if 0 ≤ numDays (363 * 86400 - 0) ∧ (numDays (363 * 86400 - 0)).toNat / 7 < 52 then
        (List.replicate 52 0).set ((numDays (363 * 86400 - 0)).toNat / 7)
          ((List.replicate 52 0).getD ((numDays (363 * 86400 - 0)).toNat / 7) 0 + 1)
      else List.replicate 52 0 :=
  participation_week_bucketing.1 dateParserRef 0 (List.replicate 52 0)
    (commitJsonWithDate "now-minus-2-days") (363 * 86400) rfl (by decide) (by decide)

/-- Counterexample for C1 as frozen. -/
theorem participation_now_minus_one_day_counterexample :
    GTApi.get_participation_stats dateParserRef nowRef
        [pageOf [commitJsonWithDate "now-minus-1-day"]] = .ok (List.replicate 52 0)
    ∧ (List.replicate 52 0).getD 51 0 = 0
    ∧ GTApi.get_participation_stats dateParserRef nowRef
        [pageOf [commitJsonWithDate "now-minus-1-day"]] ≠
          .ok ((List.replicate 52 0).set 51 1) := by
  refine ⟨rfl, rfl, ?_⟩
  intro h
  have h2 : Except.ok (ε := String) (List.replicate 52 (0 : Int)) =
      .ok ((List.replicate 52 0).set 51 1) := h
  exact absurd (Except.ok.inj h2) (by decide)

/-- Counterexample for C2 as frozen. -/
theorem cache_write_abort_counterexample :
    (collect_gitee_data 1000 (.valid cacheA) none [itemGiteeA] oracleTriv false).isOk = false
    ∧ collect_gitee_data 1000 (.valid cacheA) none [itemGiteeA] oracleTriv true =
        .ok [("https://gitee.com/a/r", recA)] :=
  ⟨rfl, rfl⟩

/-- Witness for C3. -/
theorem partial_failure_witness :
    ("https://gitee.com/b/r", recA) ∉
      computedGiteeData 1000 .absent (some "tok") itemsABC oracleLicenseFailsB :=
  (partial_failure_spec 1000 .absent (some "tok") itemsABC oracleLicenseFailsB).2.1
    "https://gitee.com/b/r" "b" "r" "get_license failed!" rfl rfl rfl recA

/-- Witness for C4. -/
theorem cache_ttl_reuse_witness :
    resolveUrl 1000 (some cacheA) true oracleTriv "https://gitee.com/a/r" = .ok recA
    ∧ resolveUrl 1000 (some [("https://gitee.com/a/r", recStale)]) true oracleTriv
        "https://gitee.com/a/r" =
        if true then collect_repository_data 1000 oracleTriv "https://gitee.com/a/r"
        else .error "no tokens provided" :=
  ⟨(cache_ttl_reuse 1000 cacheA "https://gitee.com/a/r" recA true oracleTriv rfl).1
     (by decide),
   (cache_ttl_reuse 1000 [("https://gitee.com/a/r", recStale)] "https://gitee.com/a/r"
     recStale true oracleTriv rfl).2 (by decide)⟩

/-- Witness for C5. -/
theorem first_commit_witness :
    get_last_page (some "3") = .ok (some 3)
    ∧ GTApi.get_first_commit pdNone httpC5 "o" "r" "master" =
        .ok (historyC5.getLast?.map (new_commit_from pdNone))
    ∧ GTApi.get_first_commit pdNone httpC5single "o" "r" "master" =
        .ok (historyC5.head?.map (new_commit_from pdNone)) := by
  have h := first_commit_spec pdNone httpC5 "o" "r" "master" "3" 3 historyC5
    rfl rfl rfl rfl rfl
  exact ⟨h.1, h.2.2.1, h.2.2.2 httpC5single rfl rfl rfl⟩

example : historyC5.getLast?.map (new_commit_from pdNone) = some { url := "u1", ts := none } := rfl

/-- Counterexample for C6 as frozen. -/
theorem quoted_html_url_counterexample :
    (computedGiteeData 1000 .absent (some "tok") [itemO] oracleQuoted).map
        (fun kv => (kv.1, kv.2.url)) =
      [("https://gitee.com/o/r", "\"https://gitee.com/o/r\"")]
    ∧ giteeRepoUrlIsMatch "\"https://gitee.com/o/r\"" = false :=
  ⟨rfl, rfl⟩

example : computedGiteeData 1000 .absent (some "tok") [itemO] oracleQuoted =
    [("https://gitee.com/o/r", recO)] := rfl

/-- Witness for C6 (amended). -/
theorem result_keys_match_pattern_witness :
    giteeRepoUrlIsMatch "https://gitee.com/o/r" = true :=
  result_keys_match_pattern 1000 .absent (some "tok") [itemO] oracleQuoted
    "https://gitee.com/o/r" recO (List.mem_singleton.mpr rfl)

/-- Witness for C7. -/
theorem extract_urls_witness :
    "https://gitee.com/a/r" ∈ extractUrls [itemGiteeA] :=
  ((extract_urls_spec [itemGiteeA]).2.2 "https://gitee.com/a/r").mpr
    ⟨rfl, itemGiteeA, List.mem_singleton.mpr rfl,
     ⟨"https://gitee.com/a/r"⟩, List.mem_singleton.mpr rfl, rfl⟩

/-- Witness for C8. -/
theorem no_tokens_cache_only_witness :
    computedGiteeData 1000 (.valid cacheA) none [itemGiteeA] oracleTriv =
      (extractUrls [itemGiteeA]).filterMap (fun url =>
        (lookupFresh (cachedOf (.valid cacheA)) 1000 url).map (fun r => (url, r))) :=
  (no_tokens_cache_only 1000 (.valid cacheA) none [itemGiteeA] oracleTriv oracleTriv rfl).1

/-- Witness for C9. -/
theorem languages_none_witness : recFetchA.languages = none :=
  languages_none_spec.2 1000 oracleTriv "https://gitee.com/a/r" recFetchA rfl rfl

/-- Witness for C10. -/
theorem empty_commits_defaults_witness :
    GTApi.get_latest_commit pdNone httpEmptyCommits "o" "r" "master" = .ok Commit.default
    ∧ GTApi.get_first_commit pdNone httpEmptyCommits "o" "r" "master" = .ok none := by
  have h := empty_commits_defaults pdNone httpEmptyCommits "o" "r" "master" (.arr [])
    rfl rfl rfl
  exact ⟨h.1, h.2 rfl⟩

/-- Witness for C2 (amended). -/
theorem cache_fault_handling_witness :
    collect_gitee_data 1000 .ioError none [itemGiteeA] oracleTriv true =
      collect_gitee_data 1000 .absent none [itemGiteeA] oracleTriv true
    ∧ (collect_gitee_data 1000 .ioError none [itemGiteeA] oracleTriv false).isOk = false :=
  ⟨(cache_fault_handling 1000 none [itemGiteeA] oracleTriv).1,
   (cache_fault_handling 1000 none [itemGiteeA] oracleTriv).2.2 .ioError⟩
